import Mathlib

/- Verification development for the Intuition attestation trust-scoring engine.

   The embedding covers:
   * the pure scoring engine over normalized attestations
     (src/unnamed/part_005: getTrustScore, verifyCredential, findTrustedExperts),
     in namespace `Local`;
   * the graph-client variant (src/lib/intuition/client.ts), whose scoring and
     normalization work directly on the triple rows returned by the external
     graph service, in namespace `Graph`;
   * the two dispatch entry points (the HTTP POST route of src/unnamed/part_002
     and the MCP session handler of src/lib/mcp/server.ts), in namespace
     `Dispatch`.

   JavaScript number arithmetic on the score paths only ever produces exact
   small rationals, so it is modelled with ℚ; string operations are modelled
   character-by-character. -/

namespace Intuition

/-- Model of JavaScript String.prototype.toLowerCase (per-character lowering). -/
def jsToLower (s : String) : String := String.mk (s.data.map Char.toLower)

/-- Bool test that the first character list begins with the second. -/
def startsWithChars : List Char → List Char → Bool
  | _, [] => true
  | [], _ :: _ => false
  | x :: xs, y :: ys => if x = y then startsWithChars xs ys else false

/-- Bool test that a character list occurs contiguously inside another. -/
def charsContain (needle : List Char) : List Char → Bool
  | [] => needle.isEmpty
  | x :: tl => startsWithChars (x :: tl) needle || charsContain needle tl

/-- Model of JavaScript String.prototype.includes (substring test). -/
def jsIncludes (hay needle : String) : Bool := charsContain needle.data hay.data

/-- Model of JavaScript Math.max on exact rationals. -/
def jsMax (a b : ℚ) : ℚ := if a ≤ b then b else a

/-- Model of JavaScript Math.min on exact rationals. -/
def jsMin (a b : ℚ) : ℚ := if a ≤ b then a else b

/-- Model of JavaScript Math.min on naturals (expert scores stay integral). -/
def natMin (a b : ℕ) : ℕ := if a ≤ b then a else b

/-- Model of the JavaScript fallback idiom `a || b` for an optional string
    field: both `undefined` and the empty string are falsy. -/
def jsOrStr (a : Option String) (b : String) : String :=
  match a with
  | some s => if s = "" then b else s
  | none => b

/-- Normalized attestation record (src/unnamed/part_004, interface Attestation).
    The open `metadata` mapping is never read by the engine and is omitted. -/
structure Attestation where
  id : String
  creator : String
  subject : String
  predicate : String
  object : String
  timestamp : ℚ
  confidence : ℚ
  stake : Option String
  deriving DecidableEq

/-- Breakdown block of a trust score (interface TrustScore.breakdown). -/
structure TrustBreakdown where
  credibility : ℚ
  expertise : ℚ
  reliability : ℚ
  reputation : ℚ
  deriving DecidableEq

/-- Trust-score record (interface TrustScore). The `lastUpdated` field is the
    wall clock at computation time (Date.now()) and is outside the pure model. -/
structure TrustScore where
  address : String
  score : ℚ
  attestationCount : ℕ
  positiveAttestations : ℕ
  negativeAttestations : ℕ
  breakdown : TrustBreakdown
  deriving DecidableEq

/-- Credential-verification result (interface VerificationResult). -/
structure VerificationResult where
  verified : Bool
  attestations : List Attestation
  confidence : ℚ
  message : String
  deriving DecidableEq

/-- Expert record (interface Expert). The `recentActivity` field is wall-clock
    derived (Date.now() in the engine variant) and is outside the pure model. -/
structure Expert where
  address : String
  trustScore : ℕ
  attestationCount : ℕ
  specializations : List String
  deriving DecidableEq

/-- Positive sentiment keywords of getTrustScore. -/
def positiveKeywords : List String :=
  ["expert", "trusted", "verified", "credible", "reliable"]

/-- Negative sentiment keywords of getTrustScore. -/
def negativeKeywords : List String :=
  ["scam", "fraud", "untrusted", "suspicious"]

namespace Local

/- Pure engine from src/unnamed/part_005: every operation first fetches and
   normalizes attestations (getAttestations) and then computes in memory.
   The functions below take that fetched `List Attestation` as input. -/

/-- Relevance filter of getTrustScore (src/unnamed/part_005 lines 90-97):
    the lower-cased address must occur in subject, creator or object. -/
def relevantAttestations (attestations : List Attestation) (address : String) :
    List Attestation :=
  let searchTerm := jsToLower address
  attestations.filter fun a =>
    (jsIncludes (jsToLower a.subject) searchTerm
      || jsIncludes (jsToLower a.creator) searchTerm)
    || jsIncludes (jsToLower a.object) searchTerm

/-- Combined predicate/object text of an attestation, lower-cased. -/
def sentimentText (a : Attestation) : String :=
  jsToLower (a.predicate ++ " " ++ a.object)

/-- Sentiment-positive test: some positive keyword occurs in the text. -/
def isPositive (a : Attestation) : Bool :=
  positiveKeywords.any fun kw => jsIncludes (sentimentText a) kw

/-- Sentiment-negative test: some negative keyword occurs in the text. -/
def isNegative (a : Attestation) : Bool :=
  negativeKeywords.any fun kw => jsIncludes (sentimentText a) kw

/-- getTrustScore (src/unnamed/part_005 lines 87-151), as a pure function of
    the fetched attestation list. -/
def getTrustScore (attestations : List Attestation) (address : String) :
    TrustScore :=
  let relevant := relevantAttestations attestations address
  if relevant.isEmpty then
    { address := address, score := 0, attestationCount := 0,
      positiveAttestations := 0, negativeAttestations := 0,
      breakdown :=
        { credibility := 0, expertise := 0, reliability := 0, reputation := 0 } }
  else
    let positiveCount := relevant.countP fun a => isPositive a
    let negativeCount := relevant.countP fun a => isNegative a
    let totalCount := relevant.length
    let baseScore : ℚ :=
      (((positiveCount : ℚ) - (negativeCount : ℚ) * 2) / (totalCount : ℚ)) * 100
    let normalizedScore := jsMin (jsMax (baseScore + 50) 0) 100
    { address := address, score := normalizedScore, attestationCount := totalCount,
      positiveAttestations := positiveCount, negativeAttestations := negativeCount,
      breakdown :=
        { credibility := normalizedScore, expertise := normalizedScore,
          reliability := normalizedScore, reputation := normalizedScore } }

/-- Filter of verifyCredential (src/unnamed/part_005 lines 162-168): the
    address must occur in subject, creator or object, and the claim must occur
    in predicate or object (all substring tests, case-insensitive). -/
def matchingAttestations (attestations : List Attestation)
    (address claim : String) : List Attestation :=
  let searchAddress := jsToLower address
  let searchClaim := jsToLower claim
  attestations.filter fun a =>
    ((jsIncludes (jsToLower a.subject) searchAddress
        || jsIncludes (jsToLower a.creator) searchAddress)
      || jsIncludes (jsToLower a.object) searchAddress)
    && (jsIncludes (jsToLower a.predicate) searchClaim
        || jsIncludes (jsToLower a.object) searchClaim)

/-- verifyCredential (src/unnamed/part_005 lines 156-183), as a pure function
    of the fetched attestation list. -/
def verifyCredential (attestations : List Attestation) (address claim : String) :
    VerificationResult :=
  let matching := matchingAttestations attestations address claim
  let verified := !matching.isEmpty
  let avgConfidence : ℚ :=
    if verified then
      (matching.foldl (fun s a => s + a.confidence) 0) / (matching.length : ℚ)
    else 0
  { verified := verified, attestations := matching, confidence := avgConfidence,
    message :=
      if verified then
        "Found " ++ toString matching.length ++ " attestation(s) for \"" ++ claim ++ "\""
      else
        "No attestations found for \"" ++ claim ++ "\"" }

/-- One step of the expert grouping Map of findTrustedExperts: JavaScript Map
    updates an existing key in place (preserving insertion order) and appends a
    fresh key at the end. -/
def bumpCount : List (String × ℕ) → String → List (String × ℕ)
  | [], key => [(key, 1)]
  | (k, c) :: rest, key =>
      if k = key then (k, c + 1) :: rest else (k, c) :: bumpCount rest key

/-- Per-subject attestation counts of findTrustedExperts, in first-seen order. -/
def expertCounts (topicAttestations : List Attestation) : List (String × ℕ) :=
  topicAttestations.foldl (fun m a => bumpCount m a.subject) []

/-- Descending insertion step modelling the stable Array.prototype.sort with
    comparator (a, b) => b.attestationCount - a.attestationCount: an element
    moves ahead only of strictly smaller counts, so ties keep first-seen order. -/
def insertDesc (e : Expert) : List Expert → List Expert
  | [] => [e]
  | x :: xs =>
      if x.attestationCount < e.attestationCount then e :: x :: xs
      else x :: insertDesc e xs

/-- Stable sort by descending attestation count (Array.prototype.sort model). -/
def sortByCountDesc : List Expert → List Expert
  | [] => []
  | x :: xs => insertDesc x (sortByCountDesc xs)

/-- findTrustedExperts (src/unnamed/part_005 lines 188-214), as a pure function
    of the fetched attestation list. -/
def findTrustedExperts (attestations : List Attestation) (topic : String)
    (lim : ℕ) : List Expert :=
  let topicLower := jsToLower topic
  let topicAttestations := attestations.filter fun a =>
    jsIncludes (jsToLower a.predicate) topicLower
      || jsIncludes (jsToLower a.object) topicLower
  let counts := expertCounts topicAttestations
  let experts := counts.map fun p =>
    { address := p.1, trustScore := natMin (50 + p.2 * 10) 100,
      attestationCount := p.2, specializations := [topic] : Expert }
  (sortByCountDesc experts).take lim

end Local

/-- A triple row as returned by the external graph service to the graph-client
    variant (src/lib/intuition/client.ts): nested fields are optional, and
    `createdAt` stands for the parsed created_at timestamp in milliseconds. -/
structure TripleRow where
  termId : String
  creatorId : String
  createdAt : ℚ
  subjectWalletId : Option String
  subjectLabel : Option String
  subjectData : Option String
  predicateLabel : Option String
  predicateData : Option String
  objectLabel : Option String
  objectWalletId : Option String
  objectData : Option String
  deriving DecidableEq

namespace Graph

/-- Lower-cased predicate text of a row (client.ts line 201). -/
def predicateText (r : TripleRow) : String :=
  jsToLower (jsOrStr r.predicateLabel (jsOrStr r.predicateData ""))

/-- Lower-cased object text of a row (client.ts line 202). -/
def objectText (r : TripleRow) : String :=
  jsToLower (jsOrStr r.objectLabel (jsOrStr r.objectData ""))

/-- Combined sentiment text of a row (client.ts line 203). -/
def combinedText (r : TripleRow) : String :=
  predicateText r ++ " " ++ objectText r

/-- Sentiment-positive test of the graph variant. -/
def isPositive (r : TripleRow) : Bool :=
  positiveKeywords.any fun kw => jsIncludes (combinedText r) kw

/-- Sentiment-negative test of the graph variant. -/
def isNegative (r : TripleRow) : Bool :=
  negativeKeywords.any fun kw => jsIncludes (combinedText r) kw

/-- Credibility category test (client.ts line 212): predicate text contains
    "credib" or "trust". -/
def credMatch (r : TripleRow) : Bool :=
  jsIncludes (predicateText r) "credib" || jsIncludes (predicateText r) "trust"

/-- Expertise category test (client.ts line 215): predicate text contains
    "expert" or "skill". -/
def expMatch (r : TripleRow) : Bool :=
  jsIncludes (predicateText r) "expert" || jsIncludes (predicateText r) "skill"

/-- Reliability category test (client.ts line 218): predicate text contains
    "reliab" or "verified". -/
def relMatch (r : TripleRow) : Bool :=
  jsIncludes (predicateText r) "reliab" || jsIncludes (predicateText r) "verified"

/-- Category weight of one row (client.ts lines 213, 216, 219): 1 when
    sentiment-positive, -0.5 when sentiment-negative, 0.5 otherwise. -/
def catWeight (r : TripleRow) : ℚ :=
  if isPositive r then 1 else if isNegative r then -(1/2) else 1/2

/-- Mutable accumulators of the getTrustScore forEach loop. -/
structure Sums where
  pos : ℕ
  neg : ℕ
  credS : ℚ
  expS : ℚ
  relS : ℚ

/-- One iteration of the forEach loop of getTrustScore (client.ts 200-221). -/
def step (s : Sums) (r : TripleRow) : Sums :=
  { pos := s.pos + (if isPositive r then 1 else 0),
    neg := s.neg + (if isNegative r then 1 else 0),
    credS := s.credS + (if credMatch r then catWeight r else 0),
    expS := s.expS + (if expMatch r then catWeight r else 0),
    relS := s.relS + (if relMatch r then catWeight r else 0) }

/-- Accumulated sums over all fetched rows. -/
def accum (rows : List TripleRow) : Sums :=
  rows.foldl step { pos := 0, neg := 0, credS := 0, expS := 0, relS := 0 }

/-- getTrustScore of the graph-client variant (client.ts lines 135-246), as a
    pure function of the rows returned by the subject-filtered graph query. -/
def getTrustScore (rows : List TripleRow) (address : String) : TrustScore :=
  if rows.isEmpty then
    { address := address, score := 0, attestationCount := 0,
      positiveAttestations := 0, negativeAttestations := 0,
      breakdown :=
        { credibility := 0, expertise := 0, reliability := 0, reputation := 0 } }
  else
    let s := accum rows
    let totalCount := rows.length
    let baseScore : ℚ :=
      (((s.pos : ℚ) - (s.neg : ℚ) * 2) / (totalCount : ℚ)) * 100
    let normalizedScore := jsMin (jsMax (baseScore + 50) 0) 100
    { address := address, score := normalizedScore,
      attestationCount := totalCount,
      positiveAttestations := s.pos, negativeAttestations := s.neg,
      breakdown :=
        { credibility :=
            jsMin (jsMax ((s.credS / (totalCount : ℚ)) * 100 + 50) 0) 100,
          expertise :=
            jsMin (jsMax ((s.expS / (totalCount : ℚ)) * 100 + 50) 0) 100,
          reliability :=
            jsMin (jsMax ((s.relS / (totalCount : ℚ)) * 100 + 50) 0) 100,
          reputation := normalizedScore } }

/-- Normalization of one row by getAttestations (client.ts lines 105-125):
    confidence is the constant 0.85. -/
def normalizeTriple (r : TripleRow) : Attestation :=
  { id := r.termId, creator := r.creatorId,
    subject := jsOrStr r.subjectWalletId (jsOrStr r.subjectLabel ""),
    predicate := jsOrStr r.predicateLabel (jsOrStr r.predicateData ""),
    object :=
      jsOrStr r.objectLabel (jsOrStr r.objectWalletId (jsOrStr r.objectData "")),
    timestamp := r.createdAt / 1000,
    confidence := 0.85,
    stake := some r.termId }

/-- Normalized attestation list of getAttestations. -/
def normalizeTriples (rows : List TripleRow) : List Attestation :=
  rows.map normalizeTriple

/-- Normalization of one row inside verifyCredential (client.ts lines 301-314):
    confidence is again the constant 0.85, and no stake is attached. -/
def vcNormalize (r : TripleRow) : Attestation :=
  { id := r.termId, creator := r.creatorId,
    subject := jsOrStr r.subjectWalletId "",
    predicate := jsOrStr r.predicateLabel (jsOrStr r.predicateData ""),
    object := jsOrStr r.objectLabel (jsOrStr r.objectData ""),
    timestamp := r.createdAt / 1000,
    confidence := 0.85,
    stake := none }

/-- verifyCredential of the graph-client variant (client.ts lines 251-332), as
    a pure function of the rows returned by the address-and-claim-filtered
    graph query. The decimal formatting of the percentage in the message is
    abstracted to plain rational printing. -/
def verifyCredential (rows : List TripleRow) (address claim : String) :
    VerificationResult :=
  let verified := !rows.isEmpty
  let attestations := rows.map vcNormalize
  let avgConfidence : ℚ :=
    if verified then
      (attestations.foldl (fun s a => s + a.confidence) 0)
        / (attestations.length : ℚ)
    else 0
  { verified := verified, attestations := attestations,
    confidence := avgConfidence,
    message :=
      if verified then
        "Address " ++ address ++ " has " ++ toString attestations.length
          ++ " attestation(s) for \"" ++ claim ++ "\" with "
          ++ toString (avgConfidence * 100) ++ "% confidence"
      else
        "No attestations found for \"" ++ claim ++ "\" on address " ++ address }

/-- Modelled from the spec: the category score that C2 asserts, namely the
    overall base-score formula restricted to the rows whose predicate matches
    the category keywords: clamp(((pos - 2 neg) / size) * 100 + 50) computed
    over that restricted subset only. -/
def specCategoryScore (rows : List TripleRow) (cat : TripleRow → Bool) : ℚ :=
  let sub := rows.filter cat
  jsMin
    (jsMax
      (((((sub.countP fun r => isPositive r) : ℚ)
            - ((sub.countP fun r => isNegative r) : ℚ) * 2)
          / (sub.length : ℚ)) * 100 + 50) 0) 100

end Graph

namespace Dispatch

/-- The four valid tool names, in the order the POST route reports them
    (src/unnamed/part_002 lines 72-77). -/
def availableToolNames : List String :=
  ["getTrustScore", "getAttestations", "verifyCredential", "findTrustedExperts"]

/-- Outcome of the HTTP POST dispatch (src/unnamed/part_002 lines 51-81):
    either the request is routed to the named handler, or a 400 response is
    returned whose body carries the error text and, for an unknown tool, the
    availableTools list. -/
inductive PostResult where
  | routed (tool : String)
  | badRequest (error : String) (availableTools : Option (List String))
  deriving DecidableEq

/-- The switch statement of the POST route. -/
def postRoute (tool : String) : PostResult :=
  if tool = "getTrustScore" then .routed tool
  else if tool = "getAttestations" then .routed tool
  else if tool = "verifyCredential" then .routed tool
  else if tool = "findTrustedExperts" then .routed tool
  else .badRequest ("Unknown tool: " ++ tool) (some availableToolNames)

/-- Outcome of the MCP session dispatch (src/lib/mcp/server.ts lines 54-113):
    either the call is routed to the named handler, or the thrown error is
    serialized into an isError content block {error, tool, params}; that block
    has no availableTools key, modelled as the Option being none. -/
inductive McpResult where
  | routed (tool : String)
  | errored (error : String) (availableTools : Option (List String))
  deriving DecidableEq

/-- The switch statement of the MCP CallTool handler, with the catch block
    that serializes the thrown unknown-tool error. -/
def mcpRoute (name : String) : McpResult :=
  if name = "getTrustScore" then .routed name
  else if name = "getAttestations" then .routed name
  else if name = "verifyCredential" then .routed name
  else if name = "findTrustedExperts" then .routed name
  else .errored ("Unknown tool: " ++ name) none

/-- The tool-name list attached to an MCP dispatch outcome, if any. -/
def McpResult.toolsListed : McpResult → Option (List String)
  | .routed _ => none
  | .errored _ avail => avail

/-- The tool-name list attached to a POST dispatch outcome, if any. -/
def PostResult.toolsListed : PostResult → Option (List String)
  | .routed _ => none
  | .badRequest _ avail => avail

end Dispatch

/-- Range predicate for a trust score: the overall score and every breakdown
    field lie in [0, 100]. -/
def scoreInRange (ts : TrustScore) : Prop :=
  0 ≤ ts.score ∧ ts.score ≤ 100 ∧
  0 ≤ ts.breakdown.credibility ∧ ts.breakdown.credibility ≤ 100 ∧
  0 ≤ ts.breakdown.expertise ∧ ts.breakdown.expertise ≤ 100 ∧
  0 ≤ ts.breakdown.reliability ∧ ts.breakdown.reliability ≤ 100 ∧
  0 ≤ ts.breakdown.reputation ∧ ts.breakdown.reputation ≤ 100

/-- Concrete input: an attestation whose predicate is the single word
    "untrusted", which contains both the negative keyword "untrusted" and the
    positive keyword "trusted" as substrings. -/
def untrustedAttestation : Attestation :=
  { id := "1", creator := "0xcccc", subject := "0xaaa", predicate := "untrusted",
    object := "", timestamp := 0, confidence := 0.8, stake := some "1" }

/-- Address of the spec scenario for the score formula. -/
def scenarioAddress : String := "0xABC..."

/-- First scenario attestation: positive, predicate "expert-in-defi". -/
def scenarioPositive : Attestation :=
  { id := "1", creator := "0xcccc", subject := "0xABC...",
    predicate := "expert-in-defi", object := "true", timestamp := 0,
    confidence := 0.9, stake := none }

/-- Second scenario attestation: negative, predicate "scam-alert". -/
def scenarioNegative : Attestation :=
  { id := "2", creator := "0xcccc", subject := "0xABC...",
    predicate := "scam-alert", object := "warning", timestamp := 0,
    confidence := 0.1, stake := none }

/-- The two-attestation scenario input of the spec. -/
def scenarioAttestations : List Attestation := [scenarioPositive, scenarioNegative]

/-- Concrete input: one topic-matching attestation for expert discovery. -/
def solidityAttestation : Attestation :=
  { id := "1", creator := "0xcccc", subject := "0xaaa", predicate := "solidity",
    object := "", timestamp := 0, confidence := 0.8, stake := none }

/-- The expert record produced from `solidityAttestation` alone. -/
def solidityExpert : Expert :=
  { address := "0xaaa", trustScore := 60, attestationCount := 1,
    specializations := ["solidity"] }

/-- Concrete triple row whose predicate matches the expertise category keyword
    "skill" while being neither sentiment-positive nor sentiment-negative. -/
def skillRow : TripleRow :=
  { termId := "1", creatorId := "0xcccc", createdAt := 0,
    subjectWalletId := some "0xaaa", subjectLabel := none, subjectData := none,
    predicateLabel := some "skill-in-defi", predicateData := none,
    objectLabel := some "x", objectWalletId := none, objectData := none }

/- ------------------------------------------------------------------ -/
/- Helper lemmas shared by the claim theorems.                         -/
/- ------------------------------------------------------------------ -/

/-- Clamping to [0, 100] by jsMin/jsMax is bounded below by 0. -/
lemma clamp_nonneg (q : ℚ) : 0 ≤ jsMin (jsMax q 0) 100 := by
  simp only [jsMin, jsMax]
  split_ifs <;> linarith

/-- Clamping to [0, 100] by jsMin/jsMax is bounded above by 100. -/
lemma clamp_le (q : ℚ) : jsMin (jsMax q 0) 100 ≤ 100 := by
  simp only [jsMin, jsMax]
  split_ifs <;> linarith

/-- A left fold that keeps adding f-values computes init plus the sum of the
    mapped list (the reduce((s, a) => s + a.confidence, 0) idiom). -/
lemma foldl_add_map {α : Type} (f : α → ℚ) (l : List α) :
    ∀ init : ℚ, l.foldl (fun s a => s + f a) init = init + (l.map f).sum := by
  induction l with
  | nil => intro init; simp
  | cons x tl ih =>
      intro init
      simp only [List.foldl_cons, List.map_cons, List.sum_cons]
      rw [ih (init + f x)]
      ring

/- ------------------------------------------------------------------ -/
/- Claim theorems.                                                     -/
/- ------------------------------------------------------------------ -/

/-- C1 (counterexample): on the single attestation whose predicate is
    "untrusted", getTrustScore counts the attestation toward both tallies
    (because "untrusted" contains the positive keyword "trusted"), so the sum
    of the two tallies exceeds attestationCount, refuting the claim. -/
theorem posNegTally_can_exceed_count :
    ¬ ((Local.getTrustScore [untrustedAttestation] "0xaaa").positiveAttestations
        + (Local.getTrustScore [untrustedAttestation] "0xaaa").negativeAttestations
      ≤ (Local.getTrustScore [untrustedAttestation] "0xaaa").attestationCount) := by
  decide

/-- C1 (amended): each tally separately is at most attestationCount, so their
    sum is at most twice attestationCount; the sum can exceed
    attestationCount itself because the keyword tests are independent and
    "untrusted" contains "trusted". -/
theorem posNegTally_bounds (atts : List Attestation) (addr : String) :
    (Local.getTrustScore atts addr).positiveAttestations
        ≤ (Local.getTrustScore atts addr).attestationCount ∧
    (Local.getTrustScore atts addr).negativeAttestations
        ≤ (Local.getTrustScore atts addr).attestationCount ∧
    (Local.getTrustScore atts addr).positiveAttestations
        + (Local.getTrustScore atts addr).negativeAttestations
      ≤ 2 * (Local.getTrustScore atts addr).attestationCount := by
  cases h : (Local.relevantAttestations atts addr).isEmpty with
  | true => simp [Local.getTrustScore, h]
  | false =>
      simp only [Local.getTrustScore, h, Bool.false_eq_true, if_false]
      have h1 := List.countP_le_length (fun a => Local.isPositive a)
        (l := Local.relevantAttestations atts addr)
      have h2 := List.countP_le_length (fun a => Local.isNegative a)
        (l := Local.relevantAttestations atts addr)
      exact ⟨h1, h2, by omega⟩

/-- C4: an attestation belongs to the verifyCredential result exactly when it
    belongs to the input and the address occurs (case-insensitively) in its
    subject, creator or object, and the claim text occurs in its predicate or
    object: both conditions are required. -/
theorem verifyCredential_filter_characterization
    (atts : List Attestation) (addr claim : String) (a : Attestation) :
    a ∈ (Local.verifyCredential atts addr claim).attestations ↔
      a ∈ atts ∧
        ((jsIncludes (jsToLower a.subject) (jsToLower addr) = true ∨
          jsIncludes (jsToLower a.creator) (jsToLower addr) = true ∨
          jsIncludes (jsToLower a.object) (jsToLower addr) = true) ∧
         (jsIncludes (jsToLower a.predicate) (jsToLower claim) = true ∨
          jsIncludes (jsToLower a.object) (jsToLower claim) = true)) := by
  simp only [Local.verifyCredential, Local.matchingAttestations, List.mem_filter,
    Bool.and_eq_true, Bool.or_eq_true, or_assoc]

/-- C5: for every input attestation set (engine variant) and every fetched row
    set (graph-client variant), the overall score and all four breakdown
    fields of the returned TrustScore lie in [0, 100]. -/
theorem trustScore_range_invariant (atts : List Attestation)
    (rows : List TripleRow) (addr1 addr2 : String) :
    scoreInRange (Local.getTrustScore atts addr1) ∧
    scoreInRange (Graph.getTrustScore rows addr2) := by
  constructor
  · cases h : (Local.relevantAttestations atts addr1).isEmpty with
    | true => simp [Local.getTrustScore, h, scoreInRange]
    | false =>
        simp only [Local.getTrustScore, h, Bool.false_eq_true, if_false,
          scoreInRange]
        refine ⟨clamp_nonneg _, clamp_le _, clamp_nonneg _, clamp_le _,
          clamp_nonneg _, clamp_le _, clamp_nonneg _, clamp_le _,
          clamp_nonneg _, clamp_le _⟩
  · cases h : rows.isEmpty with
    | true => simp [Graph.getTrustScore, h, scoreInRange]
    | false =>
        simp only [Graph.getTrustScore, h, Bool.false_eq_true, if_false,
          scoreInRange]
        refine ⟨clamp_nonneg _, clamp_le _, clamp_nonneg _, clamp_le _,
          clamp_nonneg _, clamp_le _, clamp_nonneg _, clamp_le _,
          clamp_nonneg _, clamp_le _⟩

/-- C6: whenever some attestation is relevant to the address, the overall
    score is ((positiveCount - 2 * negativeCount) / totalRelevant) * 100 + 50
    clamped to [0, 100]. -/
theorem trustScore_formula (atts : List Attestation) (addr : String)
    (h : Local.relevantAttestations atts addr ≠ []) :
    (Local.getTrustScore atts addr).score =
      jsMin (jsMax
        (((((Local.relevantAttestations atts addr).countP
                fun a => Local.isPositive a : ℚ)
            - 2 * ((Local.relevantAttestations atts addr).countP
                fun a => Local.isNegative a : ℚ))
          / ((Local.relevantAttestations atts addr).length : ℚ)) * 100 + 50)
        0) 100 := by
  have hne : (Local.relevantAttestations atts addr).isEmpty = false := by
    simpa [List.isEmpty_iff] using h
  simp only [Local.getTrustScore, hne, Bool.false_eq_true, if_false]
  have harith :
      ((((Local.relevantAttestations atts addr).countP
            fun a => Local.isPositive a : ℚ)
        - ((Local.relevantAttestations atts addr).countP
            fun a => Local.isNegative a : ℚ) * 2)
        / ((Local.relevantAttestations atts addr).length : ℚ)) * 100 + 50 =
      ((((Local.relevantAttestations atts addr).countP
            fun a => Local.isPositive a : ℚ)
        - 2 * ((Local.relevantAttestations atts addr).countP
            fun a => Local.isNegative a : ℚ))
        / ((Local.relevantAttestations atts addr).length : ℚ)) * 100 + 50 := by
    ring
  rw [harith]

/-- C6 (witness): on the spec scenario (one "expert-in-defi" and one
    "scam-alert" attestation on the same subject), the relevant set is
    non-empty, the tallies are 1/1 over 2 attestations, and the final score is
    ((1 - 2) / 2) * 100 + 50 = 0. -/
theorem trustScore_formula_witness :
    Local.relevantAttestations scenarioAttestations scenarioAddress ≠ [] ∧
    (Local.getTrustScore scenarioAttestations scenarioAddress).positiveAttestations = 1 ∧
    (Local.getTrustScore scenarioAttestations scenarioAddress).negativeAttestations = 1 ∧
    (Local.getTrustScore scenarioAttestations scenarioAddress).attestationCount = 2 ∧
    (Local.getTrustScore scenarioAttestations scenarioAddress).score = 0 := by
  refine ⟨by decide, by decide, by decide, by decide, ?_⟩
  have h := trustScore_formula scenarioAttestations scenarioAddress (by decide)
  rw [h]
  have h1 : ((Local.relevantAttestations scenarioAttestations scenarioAddress).countP
      fun a => Local.isPositive a) = 1 := by decide
  have h2 : ((Local.relevantAttestations scenarioAttestations scenarioAddress).countP
      fun a => Local.isNegative a) = 1 := by decide
  have h3 : (Local.relevantAttestations scenarioAttestations scenarioAddress).length = 2 := by
    decide
  rw [h1, h2, h3]
  norm_num [jsMin, jsMax]

/-- C7: verifyCredential reports verified exactly when the filtered set is
    non-empty, and its confidence is the arithmetic mean of the filtered
    attestations' confidences, 0 when the filtered set is empty. -/
theorem verifyCredential_verified_iff_confidence_mean
    (atts : List Attestation) (addr claim : String) :
    ((Local.verifyCredential atts addr claim).verified = true ↔
      Local.matchingAttestations atts addr claim ≠ []) ∧
    (Local.verifyCredential atts addr claim).confidence =
      (if Local.matchingAttestations atts addr claim = [] then 0
       else ((Local.matchingAttestations atts addr claim).map
              Attestation.confidence).sum
            / ((Local.matchingAttestations atts addr claim).length : ℚ)) := by
  constructor
  · simp [Local.verifyCredential, List.isEmpty_iff]
  · cases h : (Local.matchingAttestations atts addr claim).isEmpty with
    | true =>
        have h0 : Local.matchingAttestations atts addr claim = [] := by
          simpa [List.isEmpty_iff] using h
        simp [Local.verifyCredential, h, h0]
    | false =>
        have h0 : ¬ Local.matchingAttestations atts addr claim = [] := by
          simpa [List.isEmpty_iff] using h
        simp only [Local.verifyCredential, h, h0, if_false, Bool.not_false,
          if_true]
        rw [foldl_add_map Attestation.confidence _ 0, zero_add]

/-- Summing a constant over a list gives length times the constant. -/
lemma sum_map_const_rat {α : Type} (l : List α) (c : ℚ) :
    (l.map fun _ => c).sum = (l.length : ℚ) * c := by
  induction l with
  | nil => simp
  | cons x tl ih =>
      simp only [List.map_cons, List.sum_cons, List.length_cons, ih]
      push_cast
      ring

/-- The credibility accumulator of the forEach loop equals the sum of the
    category weights over the credibility-matching rows. -/
lemma foldl_step_credS (rows : List TripleRow) :
    ∀ init : Graph.Sums, (rows.foldl Graph.step init).credS =
      init.credS + ((rows.filter Graph.credMatch).map Graph.catWeight).sum := by
  induction rows with
  | nil => intro init; simp
  | cons r tl ih =>
      intro init
      rw [List.foldl_cons, ih]
      simp only [Graph.step, List.filter_cons]
      cases hcat : Graph.credMatch r <;> simp [hcat, add_assoc]

/-- The expertise accumulator of the forEach loop equals the sum of the
    category weights over the expertise-matching rows. -/
lemma foldl_step_expS (rows : List TripleRow) :
    ∀ init : Graph.Sums, (rows.foldl Graph.step init).expS =
      init.expS + ((rows.filter Graph.expMatch).map Graph.catWeight).sum := by
  induction rows with
  | nil => intro init; simp
  | cons r tl ih =>
      intro init
      rw [List.foldl_cons, ih]
      simp only [Graph.step, List.filter_cons]
      cases hcat : Graph.expMatch r <;> simp [hcat, add_assoc]

/-- The reliability accumulator of the forEach loop equals the sum of the
    category weights over the reliability-matching rows. -/
lemma foldl_step_relS (rows : List TripleRow) :
    ∀ init : Graph.Sums, (rows.foldl Graph.step init).relS =
      init.relS + ((rows.filter Graph.relMatch).map Graph.catWeight).sum := by
  induction rows with
  | nil => intro init; simp
  | cons r tl ih =>
      intro init
      rw [List.foldl_cons, ih]
      simp only [Graph.step, List.filter_cons]
      cases hcat : Graph.relMatch r <;> simp [hcat, add_assoc]

/-- C2 (counterexample): on the single row with predicate "skill-in-defi"
    (expertise category match, neutral sentiment), the code's expertise
    breakdown is clamp((0.5 / 1) * 100 + 50) = 100, while the base-score
    formula restricted to the matching subset gives ((0 - 0) / 1) * 100 + 50 =
    50, so the breakdown is not computed by the restricted base-score
    formula. -/
theorem breakdown_ne_specRestrictedScore :
    (Graph.getTrustScore [skillRow] "0xaaa").breakdown.expertise ≠
      Graph.specCategoryScore [skillRow] Graph.expMatch := by
  have hL : (Graph.getTrustScore [skillRow] "0xaaa").breakdown.expertise = 100 := by
    have h0 : ([skillRow] : List TripleRow).isEmpty = false := by decide
    simp only [Graph.getTrustScore, h0, Bool.false_eq_true, if_false]
    simp only [Graph.accum, List.foldl_cons, List.foldl_nil, Graph.step]
    norm_num [Graph.catWeight, show Graph.expMatch skillRow = true from by decide,
      show Graph.isPositive skillRow = false from by decide,
      show Graph.isNegative skillRow = false from by decide, jsMin, jsMax]
  have hR : Graph.specCategoryScore [skillRow] Graph.expMatch = 50 := by
    simp only [Graph.specCategoryScore]
    have h1 : (([skillRow] : List TripleRow).filter Graph.expMatch) = [skillRow] := by
      decide
    rw [h1]
    have h2 : (([skillRow] : List TripleRow).countP fun r => Graph.isPositive r) = 0 := by
      decide
    have h3 : (([skillRow] : List TripleRow).countP fun r => Graph.isNegative r) = 0 := by
      decide
    rw [h2, h3]
    norm_num [jsMin, jsMax]
  rw [hL, hR]
  norm_num

/-- C2 (amended): each of the credibility, expertise and reliability breakdown
    fields equals clamp((S / totalCount) * 100 + 50) where S sums, over the
    rows whose predicate matches the category keywords, a weight of 1 for
    sentiment-positive rows, -0.5 for sentiment-negative rows and 0.5 for
    neutral rows, and where totalCount is the total number of fetched rows
    (not the size of the matching subset); the reputation field equals the
    overall score. -/
theorem breakdown_weightedSum_formula (rows : List TripleRow) (addr : String)
    (h : rows ≠ []) :
    (Graph.getTrustScore rows addr).breakdown.credibility =
      jsMin (jsMax ((((rows.filter Graph.credMatch).map Graph.catWeight).sum
          / (rows.length : ℚ)) * 100 + 50) 0) 100 ∧
    (Graph.getTrustScore rows addr).breakdown.expertise =
      jsMin (jsMax ((((rows.filter Graph.expMatch).map Graph.catWeight).sum
          / (rows.length : ℚ)) * 100 + 50) 0) 100 ∧
    (Graph.getTrustScore rows addr).breakdown.reliability =
      jsMin (jsMax ((((rows.filter Graph.relMatch).map Graph.catWeight).sum
          / (rows.length : ℚ)) * 100 + 50) 0) 100 ∧
    (Graph.getTrustScore rows addr).breakdown.reputation =
      (Graph.getTrustScore rows addr).score := by
  have hne : rows.isEmpty = false := by simpa [List.isEmpty_iff] using h
  have hc : (Graph.accum rows).credS =
      ((rows.filter Graph.credMatch).map Graph.catWeight).sum := by
    simpa using foldl_step_credS rows ⟨0, 0, 0, 0, 0⟩
  have he : (Graph.accum rows).expS =
      ((rows.filter Graph.expMatch).map Graph.catWeight).sum := by
    simpa using foldl_step_expS rows ⟨0, 0, 0, 0, 0⟩
  have hr : (Graph.accum rows).relS =
      ((rows.filter Graph.relMatch).map Graph.catWeight).sum := by
    simpa using foldl_step_relS rows ⟨0, 0, 0, 0, 0⟩
  simp only [Graph.getTrustScore, hne, Bool.false_eq_true, if_false]
  rw [hc, he, hr]
  simp

/-- C2 (witness): the amended formula instantiated on the one-row input with
    predicate "skill-in-defi". -/
theorem breakdown_weightedSum_formula_witness :
    (Graph.getTrustScore [skillRow] "0xaaa").breakdown.reputation =
      (Graph.getTrustScore [skillRow] "0xaaa").score :=
  (breakdown_weightedSum_formula [skillRow] "0xaaa" (by decide)).2.2.2

/-- C9: the graph-client variant assigns every normalized attestation the
    constant confidence 0.85, both in getAttestations and inside
    verifyCredential, so whenever verifyCredential reports verified its
    confidence is exactly 0.85 (the mean of constants). -/
theorem graph_confidence_constant (rows : List TripleRow)
    (addr claim : String) :
    (∀ a ∈ Graph.normalizeTriples rows, a.confidence = 0.85) ∧
    ((Graph.verifyCredential rows addr claim).verified = true →
      (Graph.verifyCredential rows addr claim).confidence = 0.85) := by
  constructor
  · intro a ha
    simp only [Graph.normalizeTriples, List.mem_map] at ha
    obtain ⟨r, _, rfl⟩ := ha
    rfl
  · intro hv
    have hne : rows ≠ [] := by
      intro h0
      rw [h0] at hv
      simp [Graph.verifyCredential] at hv
    have hlen0 : rows.length ≠ 0 := fun h0 =>
      hne (List.eq_nil_of_length_eq_zero h0)
    have hlen : ((rows.length : ℚ)) ≠ 0 := Nat.cast_ne_zero.mpr hlen0
    have hveq : (!rows.isEmpty) = true := by
      simpa [List.isEmpty_iff] using hne
    simp only [Graph.verifyCredential, hveq, if_true]
    have hmap : (rows.map Graph.vcNormalize).map Attestation.confidence =
        rows.map fun _ => (0.85 : ℚ) := by
      rw [List.map_map]
      rfl
    rw [foldl_add_map Attestation.confidence _ 0, zero_add, hmap]
    rw [sum_map_const_rat rows (0.85 : ℚ), List.length_map]
    field_simp

/-- C9 (witness): on a single returned row the result is verified and its
    confidence is exactly 0.85. -/
theorem graph_confidence_constant_witness :
    (Graph.verifyCredential [skillRow] "0xaaa" "skill").confidence = 0.85 :=
  (graph_confidence_constant [skillRow] "0xaaa" "skill").2 (by decide)

/-- Inserting by descending count is a permutation of consing. -/
lemma insertDesc_perm (e : Expert) (l : List Expert) :
    (Local.insertDesc e l).Perm (e :: l) := by
  induction l with
  | nil => simp [Local.insertDesc]
  | cons x xs ih =>
      simp only [Local.insertDesc]
      split
      · exact List.Perm.refl _
      · exact (List.Perm.cons x ih).trans (List.Perm.swap e x xs)

/-- The descending sort is a permutation of its input. -/
lemma sortByCountDesc_perm (l : List Expert) :
    (Local.sortByCountDesc l).Perm l := by
  induction l with
  | nil => simp [Local.sortByCountDesc]
  | cons x xs ih =>
      simp only [Local.sortByCountDesc]
      exact (insertDesc_perm x (Local.sortByCountDesc xs)).trans
        (List.Perm.cons x ih)

/-- Inserting into a list sorted by descending count keeps it sorted. -/
lemma pairwise_insertDesc (e : Expert) (l : List Expert)
    (h : List.Pairwise (fun a b => b.attestationCount ≤ a.attestationCount) l) :
    List.Pairwise (fun a b => b.attestationCount ≤ a.attestationCount)
      (Local.insertDesc e l) := by
  induction l with
  | nil => simp [Local.insertDesc]
  | cons x xs ih =>
      rw [List.pairwise_cons] at h
      obtain ⟨hx, hxs⟩ := h
      simp only [Local.insertDesc]
      split
      · rename_i hlt
        refine List.Pairwise.cons ?_ (List.Pairwise.cons hx hxs)
        intro y hy
        rcases List.mem_cons.mp hy with rfl | hy2
        · exact Nat.le_of_lt hlt
        · exact (hx y hy2).trans (Nat.le_of_lt hlt)
      · rename_i hge
        refine List.Pairwise.cons ?_ (ih hxs)
        intro y hy
        have hy2 := (insertDesc_perm e xs).mem_iff.mp hy
        rcases List.mem_cons.mp hy2 with rfl | hy3
        · exact Nat.le_of_not_lt hge
        · exact hx y hy3

/-- The descending sort output is pairwise sorted by descending count. -/
lemma pairwise_sortByCountDesc (l : List Expert) :
    List.Pairwise (fun a b => b.attestationCount ≤ a.attestationCount)
      (Local.sortByCountDesc l) := by
  induction l with
  | nil => simp [Local.sortByCountDesc]
  | cons x xs ih =>
      simp only [Local.sortByCountDesc]
      exact pairwise_insertDesc x _ ih

/-- Keys after a Map set step: unchanged when the key was present, appended
    otherwise. -/
lemma bumpCount_fst (m : List (String × ℕ)) (key : String) :
    (Local.bumpCount m key).map Prod.fst =
      if key ∈ m.map Prod.fst then m.map Prod.fst
      else m.map Prod.fst ++ [key] := by
  induction m with
  | nil => simp [Local.bumpCount]
  | cons p rest ih =>
      obtain ⟨k, c⟩ := p
      simp only [Local.bumpCount]
      by_cases hk : k = key
      · subst hk
        simp
      · by_cases hmem : key ∈ rest.map Prod.fst
        · simp [hmem, hk, Ne.symm hk, ih]
        · simp [hmem, hk, Ne.symm hk, ih]

/-- A Map set step preserves distinctness of the keys. -/
lemma nodup_bumpCount (m : List (String × ℕ)) (key : String)
    (h : (m.map Prod.fst).Nodup) :
    ((Local.bumpCount m key).map Prod.fst).Nodup := by
  rw [bumpCount_fst]
  by_cases hmem : key ∈ m.map Prod.fst
  · simpa [hmem] using h
  · simp [hmem, List.nodup_append, h]

/-- The grouping fold keeps the keys distinct. -/
lemma foldl_bump_nodup (l : List Attestation) :
    ∀ m : List (String × ℕ), (m.map Prod.fst).Nodup →
      ((l.foldl (fun m a => Local.bumpCount m a.subject) m).map Prod.fst).Nodup := by
  induction l with
  | nil => intro m h; simpa using h
  | cons a tl ih =>
      intro m h
      rw [List.foldl_cons]
      exact ih _ (nodup_bumpCount m a.subject h)

/-- A Map set step preserves positivity of every stored count. -/
lemma bumpCount_pos (m : List (String × ℕ)) (key : String)
    (h : ∀ p ∈ m, 1 ≤ p.2) : ∀ p ∈ Local.bumpCount m key, 1 ≤ p.2 := by
  induction m with
  | nil =>
      intro p hp
      simp only [Local.bumpCount, List.mem_singleton] at hp
      simp [hp]
  | cons q rest ih =>
      obtain ⟨k, c⟩ := q
      intro p hp
      simp only [Local.bumpCount] at hp
      by_cases hk : k = key
      · rw [if_pos hk] at hp
        rcases List.mem_cons.mp hp with rfl | hp2
        · simp
        · exact h p (List.mem_cons_of_mem _ hp2)
      · rw [if_neg hk] at hp
        rcases List.mem_cons.mp hp with rfl | hp2
        · exact h (k, c) (List.mem_cons_self _ _)
        · exact ih (fun q hq => h q (List.mem_cons_of_mem _ hq)) p hp2

/-- Every stored count of the grouping fold is at least 1. -/
lemma foldl_bump_pos (l : List Attestation) :
    ∀ m : List (String × ℕ), (∀ p ∈ m, 1 ≤ p.2) →
      ∀ p ∈ l.foldl (fun m a => Local.bumpCount m a.subject) m, 1 ≤ p.2 := by
  induction l with
  | nil => intro m h; simpa using h
  | cons a tl ih =>
      intro m h
      rw [List.foldl_cons]
      exact ih _ (bumpCount_pos m a.subject h)

/-- Every count in the expert grouping is at least 1. -/
lemma expertCounts_pos (l : List Attestation) :
    ∀ p ∈ Local.expertCounts l, 1 ≤ p.2 :=
  foldl_bump_pos l [] (by simp)

/-- The expert grouping has pairwise-distinct keys. -/
lemma expertCounts_keys_nodup (l : List Attestation) :
    ((Local.expertCounts l).map Prod.fst).Nodup :=
  foldl_bump_nodup l [] (by simp)

/-- C8: for every input, topic and limit, the expert list is sorted by
    descending match count, contains at most limit entries, and its addresses
    are pairwise distinct. -/
theorem findTrustedExperts_sorted_truncated_nodup (atts : List Attestation)
    (topic : String) (lim : ℕ) :
    (Local.findTrustedExperts atts topic lim).length ≤ lim ∧
    List.Pairwise (fun a b => b.attestationCount ≤ a.attestationCount)
      (Local.findTrustedExperts atts topic lim) ∧
    ((Local.findTrustedExperts atts topic lim).map Expert.address).Nodup := by
  refine ⟨?_, ?_, ?_⟩
  · simp only [Local.findTrustedExperts]
    rw [List.length_take]
    exact min_le_left _ _
  · simp only [Local.findTrustedExperts]
    exact List.Pairwise.sublist (List.take_sublist _ _)
      (pairwise_sortByCountDesc _)
  · simp only [Local.findTrustedExperts]
    rw [List.map_take]
    refine List.Nodup.sublist (List.take_sublist _ _) ?_
    rw [List.Perm.nodup_iff (List.Perm.map Expert.address (sortByCountDesc_perm _))]
    rw [List.map_map]
    exact expertCounts_keys_nodup _

/-- C10: every expert returned by findTrustedExperts has a trust score between
    60 and 100: its match count is at least 1, so
    min(50 + 10 * count, 100) is at least 60 and at most 100. -/
theorem expert_trustScore_range (atts : List Attestation) (topic : String)
    (lim : ℕ) (e : Expert)
    (h : e ∈ Local.findTrustedExperts atts topic lim) :
    60 ≤ e.trustScore ∧ e.trustScore ≤ 100 := by
  simp only [Local.findTrustedExperts] at h
  have h2 := (List.take_sublist _ _).subset h
  have h3 := (sortByCountDesc_perm _).mem_iff.mp h2
  obtain ⟨p, hp, rfl⟩ := List.mem_map.mp h3
  have hpos := expertCounts_pos _ p hp
  constructor
  · show 60 ≤ natMin (50 + p.2 * 10) 100
    simp only [natMin]
    split <;> omega
  · show natMin (50 + p.2 * 10) 100 ≤ 100
    simp only [natMin]
    split <;> omega

/-- C10 (witness): on one topic-matching attestation, the produced expert is
    in the result and its trust score is 60, inside [60, 100]. -/
theorem expert_trustScore_range_witness :
    solidityExpert ∈ Local.findTrustedExperts [solidityAttestation] "solidity" 10 ∧
    60 ≤ solidityExpert.trustScore ∧ solidityExpert.trustScore ≤ 100 := by
  refine ⟨by decide, ?_, ?_⟩
  · exact (expert_trustScore_range [solidityAttestation] "solidity" 10
      solidityExpert (by decide)).1
  · exact (expert_trustScore_range [solidityAttestation] "solidity" 10
      solidityExpert (by decide)).2

/-- C3 (counterexample): dispatching the unknown operation "foo" on the MCP
    session shape yields an error that lists no tool names at all, while the
    HTTP POST shape lists the four valid names, so the two call shapes do not
    behave identically and the session error does not list the valid set. -/
theorem mcp_unknownTool_listsNothing :
    Dispatch.McpResult.toolsListed (Dispatch.mcpRoute "foo") = none ∧
    Dispatch.PostResult.toolsListed (Dispatch.postRoute "foo") =
      some Dispatch.availableToolNames := by
  decide

/-- C3 (amended): for every operation name outside the four valid ones, the
    HTTP POST shape returns an error message "Unknown tool: name" together
    with the list of exactly the four valid names, while the MCP session shape
    returns the same error message but no list of valid names. -/
theorem dispatch_unknownTool_behavior (t : String)
    (h : t ∉ Dispatch.availableToolNames) :
    Dispatch.postRoute t =
      Dispatch.PostResult.badRequest ("Unknown tool: " ++ t)
        (some Dispatch.availableToolNames) ∧
    Dispatch.mcpRoute t =
      Dispatch.McpResult.errored ("Unknown tool: " ++ t) none := by
  simp only [Dispatch.availableToolNames, List.mem_cons,
    List.not_mem_nil, or_false, not_or] at h
  obtain ⟨h1, h2, h3, h4⟩ := h
  constructor
  · simp [Dispatch.postRoute, h1, h2, h3, h4]
  · simp [Dispatch.mcpRoute, h1, h2, h3, h4]

/-- C3 (witness): the amended behavior instantiated at the unknown operation
    name "foo". -/
theorem dispatch_unknownTool_behavior_witness :
    Dispatch.postRoute "foo" =
      Dispatch.PostResult.badRequest ("Unknown tool: " ++ "foo")
        (some Dispatch.availableToolNames) ∧
    Dispatch.mcpRoute "foo" =
      Dispatch.McpResult.errored ("Unknown tool: " ++ "foo") none :=
  dispatch_unknownTool_behavior "foo" (by decide)

end Intuition
